import Mathlib

/-!
# Verification of the `ftr` LAN file-transfer tool (src/main.go)

A shallow embedding of the core of `main.go`:

* the archiver (`zipTar`, `unzipUntar`), modelled over a segment-level
  representation of slash paths with Go `path.Join`/`path.Clean` semantics;
* the receiver pipeline (`getFileDropHandler`, `authMiddleware`,
  `isDirectory`) modelled as a pure function from a request and a
  filesystem state to an HTTP status and a new state;
* the sender's type-framing header choice (`sendFile`).

Conventions:

* Absolute cleaned paths are represented as `List String` of their
  segments (so `/home/u/Downloads` is `["home","u","Downloads"]`).
  Raw, possibly-dirty path strings (tar entry names, declared upload
  filenames) are split on `'/'` into raw segments that may contain
  `""`, `"."` and `".."`; joining them under a root reproduces Go's
  lexical `path.Clean` of the concatenation.
* File contents are `List Nat` (byte sequences).
* Filesystem writes that `main.go` only fails on under I/O errors
  (`os.Create`, `os.MkdirAll`, `io.Copy` to disk) are modelled as
  succeeding; all control-flow-relevant failure cases (suffix check,
  unsupported tar entry types, stat-based collision check) are modelled
  exactly.
-/

namespace Ftr

/-! ## Go `path` and `strings` primitives -/

/-- Go `strings.HasSuffix`, on character lists. -/
def goHasSuffix (s suf : List Char) : Bool := suf.isSuffixOf s

/-- Go `strings.TrimSuffix`, on character lists. -/
def goTrimSuffix (s suf : List Char) : List Char :=
  if suf.isSuffixOf s then s.take (s.length - suf.length) else s

/-- Split a character list on `'/'` (the segment structure of a slash path). -/
def splitSlashChars : List Char → List (List Char)
  | [] => [[]]
  | c :: cs =>
    let rest := splitSlashChars cs
    if c = '/' then [] :: rest
    else match rest with
      | [] => [[c]]
      | seg :: segs => (c :: seg) :: segs

/-- Raw segments of a slash-path string. -/
def splitSlash (s : String) : List String :=
  (splitSlashChars s.data).map String.mk

/-- The lexical cleaning performed by Go `path.Clean` on a rooted path,
processing raw segments against a stack of already-cleaned segments:
`""` and `"."` are dropped, `".."` pops the stack (staying at the root
when the stack is empty), anything else is pushed. -/
def cleanPush (stack : List String) : List String → List String
  | [] => stack
  | s :: rest =>
    if s = "" ∨ s = "." then cleanPush stack rest
    else if s = ".." then cleanPush stack.dropLast rest
    else cleanPush (stack ++ [s]) rest

/-- Go `path.Join(dir, name)` where `dir` is an already-cleaned absolute
path (as its segment list) and `name` is a raw slash string given as its
raw segments: concatenate and clean. -/
def goPathJoin (dir : List String) (rawName : List String) : List String :=
  cleanPush dir rawName

/-- Go `path.Dir` of a cleaned absolute path: everything but the last
segment. -/
def goPathDir (p : List String) : List String := p.dropLast

/-- Go `path.Base`, on character lists, exactly as in the standard
library: empty input gives `"."`; trailing slashes are stripped; the
part after the last `'/'` is returned; if nothing remains the path was
all slashes and the result is `"/"`. -/
def goPathBaseChars (p : List Char) : List Char :=
  if p = [] then ['.']
  else
    let q := (p.reverse.dropWhile (fun c => c = '/')).reverse
    let r := (q.reverse.takeWhile (fun c => c ≠ '/')).reverse
    if r = [] then ['/'] else r

/-- Go `path.Base` on strings. -/
def goPathBase (s : String) : String := String.mk (goPathBaseChars s.data)

/-- A raw segment that is a genuine single path component: nonempty,
not `"."` or `".."`, and containing no slash. Every base name of a real
file or directory satisfies this. -/
def validSeg (s : String) : Prop :=
  s ≠ "" ∧ s ≠ "." ∧ s ≠ ".." ∧ '/' ∉ s.data

instance (s : String) : Decidable (validSeg s) := by
  unfold validSeg; infer_instance

/-! ## Filesystem state -/

/-- Byte sequence. -/
abbrev Bytes := List Nat

/-- The filesystem fragment the receiver touches: a set of directories
and a map from file paths to contents, both keyed by cleaned absolute
paths. -/
structure FS where
  dirs : List (List String)
  files : List (List String × Bytes)
  deriving Repr, DecidableEq

/-- The empty filesystem. -/
def FS.empty : FS := ⟨[], []⟩

/-- All prefixes of a path, shortest first (the chain of parents
`os.MkdirAll` creates). -/
def prefixesOf (p : List String) : List (List String) :=
  (List.range (p.length + 1)).map (fun n => p.take n)

/-- Go `os.MkdirAll`: create the directory and every parent. -/
def FS.mkdirAll (fs : FS) (p : List String) : FS :=
  { fs with dirs := fs.dirs ++ prefixesOf p }

/-- Update an association list at a key, replacing an existing binding
or appending a new one (Go `os.Create`: truncate-or-create). -/
def setFile : List (List String × Bytes) → List String → Bytes →
    List (List String × Bytes)
  | [], p, c => [(p, c)]
  | (q, d) :: rest, p, c =>
    if q = p then (p, c) :: rest else (q, d) :: setFile rest p c

/-- Go `os.Create` followed by `io.Copy`: write `c` to the file at `p`. -/
def FS.createFile (fs : FS) (p : List String) (c : Bytes) : FS :=
  { fs with files := setFile fs.files p c }

/-- Go `os.Stat(p); err == nil`: the path exists, as a directory or a
file. -/
def FS.statExists (fs : FS) (p : List String) : Bool :=
  decide (p ∈ fs.dirs) || decide (p ∈ fs.files.map Prod.fst)

/-- Look up a file's contents. -/
def FS.lookupFile (fs : FS) (p : List String) : Option Bytes :=
  (fs.files.find? (fun e => e.1 = p)).map Prod.snd

/-! ## Tar entries and the archiver -/

/-- Tar entry type flag as `unzipUntar` discriminates it: `tar.TypeDir`,
`tar.TypeReg`, or any other flag byte (symlinks, char devices, ...). -/
inductive TypeFlag where
  | dir
  | reg
  | other (flag : Nat)
  deriving Repr, DecidableEq

/-- One tar header plus body, as written by `zipTar` and read by
`unzipUntar`. `name` is the slash-separated `header.Name` as its raw
segments. -/
structure TarEntry where
  name : List String
  typeflag : TypeFlag
  mode : Nat
  content : Bytes
  deriving Repr, DecidableEq

/-- The permission adjustment `zipTar` applies to directory headers
(main.go lines 213-222), bit for bit: for each of owner/group/other,
if the READ bit (0o400/0o040/0o004) is clear, set the corresponding
execute bit (0o100/0o010/0o001). -/
def tarDirMode (m : Nat) : Nat :=
  let m1 := if m &&& 0o400 = 0 then m ||| 0o100 else m
  let m2 := if m1 &&& 0o040 = 0 then m1 ||| 0o010 else m1
  if m2 &&& 0o004 = 0 then m2 ||| 0o001 else m2

/-- What `filepath.WalkDir` reports for one visited path: its mode-kind
(directory, regular-ish file with content, or symlink). -/
inductive WalkKind where
  | dirK (mode : Nat)
  | fileK (mode : Nat) (content : Bytes)
  | symlinkK
  deriving Repr, DecidableEq

/-- One item of the `filepath.WalkDir(src, ...)` visit sequence:
`relPath` is the path relative to `src` as segments. `relPath = []` is
the root visit of `src` itself, for which Go's
`filepath.Rel(filepath.Dir(src), src)` evaluates to `Base(src)` — NOT
`"."`. -/
structure WalkItem where
  relPath : List String
  kind : WalkKind
  deriving Repr, DecidableEq

/-- The tar entries `zipTar`'s walk callback emits for one visited item
(main.go lines 179-242), for a cleaned `src` with no trailing slash
whose base name is `base`. The entry name is
`filepath.Rel(filepath.Dir(src), path)`, i.e. `base :: relPath` — for
the root visit itself that is `[base]`, since
`Rel(Dir(src), src) = Base(src)`. The guard `relPath == "."`
(main.go line 195, intended to skip the top-level directory) therefore
compares `base :: relPath` against `"."` and fires only in the
degenerate case `src = "."` (where `Base(src) = "."`): on a normal
invocation the top-level directory IS emitted as a `tar.TypeDir` entry
named `base`. After that guard, symlinks are skipped; directories get
`tar.TypeDir` and the `tarDirMode` adjustment with no body; everything
else gets `tar.TypeReg` with the file's bytes as body. -/
def packItem (base : String) (it : WalkItem) : List TarEntry :=
  if base :: it.relPath = ["."] then []
  else
    match it.kind with
    | .symlinkK => []
    | .dirK m => [⟨base :: it.relPath, .dir, tarDirMode m, []⟩]
    | .fileK m c => [⟨base :: it.relPath, .reg, m, c⟩]

/-- The full tar stream `zipTar` writes for the walk sequence `items`
of the source directory whose base name is `base`. -/
def zipTarEntries (base : String) (items : List WalkItem) : List TarEntry :=
  items.flatMap (packItem base)

/-! ## unzipUntar -/

/-- The destination-directory computation of `unzipUntar` (main.go
lines 247-254), applied to the archive file's base name: a name ending
in `".tar.gz"` has `"tar.gz"` trimmed (leaving a trailing `"."`), else
a name ending in `".tgz"` has `"tgz"` trimmed, else the error
`"the file is not a tarball"` — raised before the file is even opened. -/
def untarDstName (fileName : String) : Except String String :=
  if goHasSuffix fileName.data ".tar.gz".data then
    .ok (String.mk (goTrimSuffix fileName.data "tar.gz".data))
  else if goHasSuffix fileName.data ".tgz".data then
    .ok (String.mk (goTrimSuffix fileName.data "tgz".data))
  else
    .error "the file is not a tarball"

/-- Processing of one tar entry by `unzipUntar`'s loop (main.go lines
276-298): a directory entry is `MkdirAll`ed at `path.Join(dst, name)`;
a regular entry gets its parent `MkdirAll`ed and its body written at
`path.Join(dst, name)`; any other type flag is an error. -/
def applyEntry (dst : List String) (fs : FS) (e : TarEntry) :
    Except String FS :=
  match e.typeflag with
  | .dir => .ok (fs.mkdirAll (goPathJoin dst e.name))
  | .reg =>
    let filePath := goPathJoin dst e.name
    .ok ((fs.mkdirAll (goPathDir filePath)).createFile filePath e.content)
  | .other _ => .error "Unrecognized tar entry type"

/-- `unzipUntar`'s extraction loop over the whole entry stream: stops
with the error of the first failing entry, applying none of the later
ones. -/
def untarEntries (dst : List String) (fs : FS) :
    List TarEntry → Except String FS
  | [] => .ok fs
  | e :: rest =>
    match applyEntry dst fs e with
    | .ok fs' => untarEntries dst fs' rest
    | .error msg => .error msg

/-- `unzipUntar(src)` where `src = path.Join(dirOfArchive, fileName)`:
the suffix check and destination computation run on the name, then the
archive's entries are extracted under `dirOfArchive/<trimmed name>`.
`entries` is the decoded gzip+tar stream of the archive file. -/
def unzipUntar (dirOfArchive : List String) (fileName : String)
    (entries : List TarEntry) (fs : FS) : Except String FS :=
  match untarDstName fileName with
  | .error msg => .error msg
  | .ok dstName =>
    untarEntries (goPathJoin dirOfArchive (splitSlash dstName)) fs entries

/-! ## Receiver pipeline -/

/-- `isDirectory` (main.go lines 144-163): `none` models a nil header;
an absent field models as `some ""` (Go `Header.Get` returns `""`).
Only the exact value `"dir"` yields `true`. -/
def isDirectory (fileType : Option String) : Bool :=
  match fileType with
  | none => false
  | some ft =>
    if ft = "" then false
    else if ft = "dir" then true
    else if ft = "file" then false
    else false

/-- One HTTP upload request as the receiver sees it: the method, the
`X-Ftr-Passkey` header value (`""` when absent), whether
`r.FormFile("file")` succeeds, the declared filename of the file part,
its raw bytes, the `X-Ftr-File-Type` header, and the gzip+tar decoding
of the bytes for the case extraction runs (`none`: the bytes are not a
valid gzip+tar stream). -/
structure UploadRequest where
  method : String
  passKey : String
  formOk : Bool
  filename : String
  content : Bytes
  fileType : Option String
  archive : Option (List TarEntry)
  deriving Repr, DecidableEq

/-- Extraction as invoked by the handler on the just-written archive
file: gzip decoding failure (`archive = none`) is an error, otherwise
the decoded entries are extracted. -/
def handlerUntar (dropDir : List String) (fileName : String)
    (r : UploadRequest) (fs : FS) : Except String FS :=
  match untarDstName fileName with
  | .error msg => .error msg
  | .ok dstName =>
    match r.archive with
    | none => .error "gzip: invalid header"
    | some entries =>
      untarEntries (goPathJoin dropDir (splitSlash dstName)) fs entries

/-- The handler returned by `getFileDropHandler(dropDir, passKey)`
(main.go lines 311-356), as a pure function from the request and the
filesystem to the HTTP status and the new filesystem. The write itself
is modelled as succeeding (its I/O-error 500 branches are not control
flow the claims depend on). A handler run that reaches the end of the
Go function without calling `http.Error` responds 200. -/
def fileDropHandler (dropDir : List String) (fs : FS)
    (r : UploadRequest) : Nat × FS :=
  if r.method ≠ "POST" then (405, fs)
  else if !r.formOk then (400, fs)
  else
    let fileName := goPathBase r.filename
    if fileName = "" ∨ fileName = "." ∨ fileName = ".." then (400, fs)
    else
      let dstPath := goPathJoin dropDir (splitSlash fileName)
      if fs.statExists dstPath then (409, fs)
      else
        let fs1 := fs.createFile dstPath r.content
        if isDirectory r.fileType then
          match handlerUntar dropDir fileName r fs1 with
          | .ok fs2 => (200, fs2)
          | .error _ => (500, fs1)
        else (200, fs1)

/-- `authMiddleware(passKey, next)` (main.go lines 359-371): compare
the `X-Ftr-Passkey` header against the configured key; mismatch gives
401 without invoking `next`. -/
def authMiddleware (passKey : String)
    (next : FS → UploadRequest → Nat × FS)
    (fs : FS) (r : UploadRequest) : Nat × FS :=
  if r.passKey ≠ passKey then (401, fs) else next fs r

/-- The receiver's full request pipeline as wired by
`startReceiverServer` (main.go lines 373-395): the drop handler behind
the auth middleware. -/
def receiverServe (dropDir : List String) (passKey : String)
    (fs : FS) (r : UploadRequest) : Nat × FS :=
  authMiddleware passKey (fileDropHandler dropDir) fs r

/-! ## Sender -/

/-- The value the sender puts in the `X-Ftr-File-Type` header (main.go
lines 466-469): set to `"file"`, then overwritten with `"dir"` when the
stat of the ORIGINAL source path reported a directory. -/
def senderFileType (srcIsDir : Bool) : String :=
  if srcIsDir then "dir" else "file"

/-! ## Round-trip correspondence

`fileOutputs dst base items` is the statement-side description of what
extraction of `zipTarEntries base items` under the root `dst` should
produce: one file per regular-file walk item (the top-level item and
symlinks excluded), at the item's source-relative name rooted at
`base`, with the item's original bytes. -/

/-- Expected extracted files: for each regular-file item of the walk at
relative path `r` with content `c`, the file `dst ++ base :: r` with
content `c`. (For `validSeg base` the `"."`-guard of `packItem` never
fires, so every regular-file item contributes.) -/
def fileOutputs (dst : List String) (base : String)
    (items : List WalkItem) : List (List String × Bytes) :=
  items.filterMap (fun it =>
    match it.kind with
    | .fileK _ c => some (dst ++ base :: it.relPath, c)
    | _ => none)

/-! ## Basic lemmas about the path and filesystem primitives -/

theorem string_mk_data (s : String) : String.mk s.data = s := rfl

theorem splitSlashChars_no_slash (l : List Char) (h : '/' ∉ l) :
    splitSlashChars l = [l] := by
  induction l with
  | nil => rfl
  | cons c cs ih =>
    simp only [List.mem_cons, not_or] at h
    unfold splitSlashChars
    rw [ih h.2, if_neg (fun hc => h.1 hc.symm)]

theorem splitSlash_valid (s : String) (h : validSeg s) :
    splitSlash s = [s] := by
  obtain ⟨h1, h2, h3, h4⟩ := h
  unfold splitSlash
  rw [splitSlashChars_no_slash s.data h4]
  simp [string_mk_data]

theorem cleanPush_valid (l : List String) (h : ∀ s ∈ l, validSeg s) :
    ∀ stack, cleanPush stack l = stack ++ l := by
  induction l with
  | nil => intro stack; simp [cleanPush]
  | cons s rest ih =>
    intro stack
    obtain ⟨h1, h2, h3, h4⟩ := h s (List.mem_cons_self ..)
    unfold cleanPush
    rw [if_neg (by simp [h1, h2]), if_neg h3,
      ih (fun t ht => h t (List.mem_cons_of_mem _ ht)) (stack ++ [s])]
    simp

theorem goPathJoin_valid (dir : List String) (l : List String)
    (h : ∀ s ∈ l, validSeg s) : goPathJoin dir l = dir ++ l :=
  cleanPush_valid l h dir

theorem goPathJoin_single (dir : List String) (f : String)
    (h : validSeg f) : goPathJoin dir (splitSlash f) = dir ++ [f] := by
  have hall : ∀ s ∈ [f], validSeg s := by
    intro s hs
    rw [List.mem_singleton] at hs
    rw [hs]
    exact h
  rw [goPathJoin, splitSlash_valid f h, cleanPush_valid [f] hall dir]

theorem setFile_append (l : List (List String × Bytes)) (p : List String)
    (c : Bytes) (h : p ∉ l.map Prod.fst) : setFile l p c = l ++ [(p, c)] := by
  induction l with
  | nil => rfl
  | cons e rest ih =>
    obtain ⟨q, d⟩ := e
    simp only [List.map_cons, List.mem_cons, not_or] at h
    unfold setFile
    rw [if_neg (fun hq => h.1 hq.symm), ih h.2]
    rfl

theorem FS.mkdirAll_files (fs : FS) (p : List String) :
    (fs.mkdirAll p).files = fs.files := rfl

theorem FS.createFile_files (fs : FS) (p : List String) (c : Bytes) :
    (fs.createFile p c).files = setFile fs.files p c := rfl

theorem FS.statExists_iff (fs : FS) (p : List String) :
    fs.statExists p = true ↔ p ∈ fs.dirs ∨ p ∈ fs.files.map Prod.fst := by
  simp [FS.statExists]

theorem untarEntries_append (dst : List String) (fs : FS)
    (l1 l2 : List TarEntry) :
    untarEntries dst fs (l1 ++ l2) =
      match untarEntries dst fs l1 with
      | .ok fs' => untarEntries dst fs' l2
      | .error msg => .error msg := by
  induction l1 generalizing fs with
  | nil => rfl
  | cons e rest ih =>
    simp only [List.cons_append, untarEntries]
    cases applyEntry dst fs e with
    | ok fs' => exact ih fs'
    | error m => rfl

theorem untarDstName_targz (base : String) :
    untarDstName (base ++ ".tar.gz") = .ok (base ++ ".") := by
  have h1 : goHasSuffix (base ++ ".tar.gz").data ".tar.gz".data = true := by
    unfold goHasSuffix
    rw [List.isSuffixOf_iff_suffix, String.data_append]
    exact List.suffix_append _ _
  have h2 : goTrimSuffix (base ++ ".tar.gz").data "tar.gz".data
      = (base ++ ".").data := by
    have hdata : (base ++ ".tar.gz").data
        = (base ++ ".").data ++ "tar.gz".data := by
      simp [String.data_append]
    have hsuf : "tar.gz".data.isSuffixOf ((base ++ ".").data ++ "tar.gz".data)
        = true := by
      rw [List.isSuffixOf_iff_suffix]
      exact List.suffix_append _ _
    unfold goTrimSuffix
    rw [hdata, if_pos hsuf]
    simp only [List.length_append]
    rw [Nat.add_sub_cancel, List.take_left]
  unfold untarDstName
  rw [if_pos h1, h2, string_mk_data]

/-- Key induction for the round trip: extracting the entry stream
`zipTarEntries base items` under any root `dst` succeeds and appends to
the filesystem exactly the files described by `fileOutputs`, provided
all walked names are genuine path components, the expected file paths
are distinct, and none of them is already present. -/
theorem untar_zipTar (base : String) (items : List WalkItem)
    (dst : List String) :
    ∀ fs : FS,
    validSeg base →
    (∀ it ∈ items, ∀ s ∈ it.relPath, validSeg s) →
    ((fileOutputs dst base items).map Prod.fst).Nodup →
    (∀ k ∈ (fileOutputs dst base items).map Prod.fst,
        k ∉ fs.files.map Prod.fst) →
    (untarEntries dst fs (zipTarEntries base items)).map FS.files
      = .ok (fs.files ++ fileOutputs dst base items) := by
  induction items with
  | nil =>
    intro fs _ _ _ _
    simp [zipTarEntries, untarEntries, fileOutputs, Except.map]
  | cons it rest ih =>
    intro fs hbase hsegs hnd hfresh
    have hsegs' : ∀ it' ∈ rest, ∀ s ∈ it'.relPath, validSeg s :=
      fun it' h' => hsegs it' (List.mem_cons_of_mem _ h')
    have hzip : zipTarEntries base (it :: rest)
        = packItem base it ++ zipTarEntries base rest := by
      simp [zipTarEntries]
    rw [hzip, untarEntries_append]
    have hskip : ¬ base :: it.relPath = ["."] := by
      intro h
      exact hbase.2.1 (List.cons_eq_cons.mp h).1
    cases hk : it.kind with
    | symlinkK =>
      have hp : packItem base it = [] := by simp [packItem, hk, hskip]
      have hf : fileOutputs dst base (it :: rest)
          = fileOutputs dst base rest := by
        simp [fileOutputs, hk]
      rw [hp, hf]
      exact ih fs hbase hsegs' (hf ▸ hnd) (hf ▸ hfresh)
    | dirK m =>
      have hp : packItem base it
          = [⟨base :: it.relPath, .dir, tarDirMode m, []⟩] := by
        simp [packItem, hk, hskip]
      have hf : fileOutputs dst base (it :: rest)
          = fileOutputs dst base rest := by
        simp [fileOutputs, hk]
      have hstep :
          untarEntries dst fs [⟨base :: it.relPath, .dir, tarDirMode m, []⟩]
            = .ok (fs.mkdirAll (goPathJoin dst (base :: it.relPath))) := rfl
      rw [hp, hstep, hf]
      exact ih (fs.mkdirAll (goPathJoin dst (base :: it.relPath))) hbase
        hsegs' (hf ▸ hnd) (hf ▸ hfresh)
    | fileK m c =>
      have hval : ∀ s ∈ base :: it.relPath, validSeg s := by
        intro s hs
        rcases List.mem_cons.mp hs with h | h
        · rw [h]; exact hbase
        · exact hsegs it (List.mem_cons_self ..) s h
      have hjoin : goPathJoin dst (base :: it.relPath)
          = dst ++ base :: it.relPath := goPathJoin_valid dst _ hval
      have hp : packItem base it
          = [⟨base :: it.relPath, .reg, m, c⟩] := by
        simp [packItem, hk, hskip]
      have hf : fileOutputs dst base (it :: rest)
          = (dst ++ base :: it.relPath, c) :: fileOutputs dst base rest := by
        simp [fileOutputs, hk]
      have hkfs : dst ++ base :: it.relPath ∉ fs.files.map Prod.fst := by
        apply hfresh
        rw [hf]
        simp
      have hstep :
          untarEntries dst fs [⟨base :: it.relPath, .reg, m, c⟩]
            = .ok ((fs.mkdirAll
                (goPathDir (dst ++ base :: it.relPath))).createFile
                  (dst ++ base :: it.relPath) c) := by
        simp [untarEntries, applyEntry, hjoin]
      have hfiles :
          ((fs.mkdirAll (goPathDir (dst ++ base :: it.relPath))).createFile
              (dst ++ base :: it.relPath) c).files
            = fs.files ++ [(dst ++ base :: it.relPath, c)] := by
        rw [FS.createFile_files, FS.mkdirAll_files,
          setFile_append _ _ _ hkfs]
      rw [hf] at hnd
      simp only [List.map_cons, List.nodup_cons] at hnd
      obtain ⟨hknotin, hndrest⟩ := hnd
      have hfresh' : ∀ k ∈ (fileOutputs dst base rest).map Prod.fst,
          k ∉ ((fs.mkdirAll
              (goPathDir (dst ++ base :: it.relPath))).createFile
                (dst ++ base :: it.relPath) c).files.map Prod.fst := by
        intro k hkmem
        rw [hfiles]
        simp only [List.map_append, List.mem_append, not_or]
        constructor
        · apply hfresh
          rw [hf]
          simp only [List.map_cons]
          exact List.mem_cons_of_mem _ hkmem
        · simp only [List.map_cons, List.map_nil, List.mem_singleton]
          intro hin
          exact hknotin (hin ▸ hkmem)
      have hres := ih ((fs.mkdirAll
          (goPathDir (dst ++ base :: it.relPath))).createFile
            (dst ++ base :: it.relPath) c) hbase hsegs' hndrest hfresh'
      rw [hfiles] at hres
      rw [hp, hstep, hf]
      simpa [List.append_assoc] using hres

/-! ## Claim theorems -/

/-- C1: the claim states that `unzipUntar` rejects an archive entry
whose joined path escapes the destination root (upward traversal or
absolute path) with an `UnsafeArchiveEntry` error. The code performs no
such check: extracting `/drop/d.tar.gz` (destination root `/drop/d.`)
containing the regular-file entry `../evil.txt` succeeds and creates
the file `/drop/evil.txt`, which is NOT under the destination root
`/drop/d.`. -/
theorem claim_C1_traversal_escape :
    unzipUntar ["drop"] "d.tar.gz"
        [⟨["..", "evil.txt"], .reg, 0o644, [7]⟩] FS.empty
      = .ok ⟨[[], ["drop"]], [(["drop", "evil.txt"], [7])]⟩
    ∧ ¬ ["drop", "d."] <+: ["drop", "evil.txt"] := by
  constructor
  · rfl
  · decide

/-- C2: a request whose `X-Ftr-Passkey` header differs from the
configured (non-empty) key is answered 401 by the auth middleware and
the drop handler is never invoked, so the filesystem is returned
unchanged. -/
theorem claim_C2_auth_reject (dropDir : List String) (passKey : String)
    (fs : FS) (r : UploadRequest)
    (hkey : passKey ≠ "") (hmismatch : r.passKey ≠ passKey) :
    receiverServe dropDir passKey fs r = (401, fs) := by
  unfold receiverServe authMiddleware
  rw [if_pos hmismatch]

/-- Witness for C2 at a concrete request. -/
theorem claim_C2_auth_reject_witness :
    ("secret" : String) ≠ ""
    ∧ receiverServe ["home", "u", "Downloads"] "secret"
        ⟨[["home", "u", "Downloads"]], []⟩
        ⟨"POST", "wrong", true, "a.txt", [1], some "file", none⟩
      = (401, ⟨[["home", "u", "Downloads"]], []⟩) :=
  ⟨by decide, claim_C2_auth_reject _ _ _ _ (by decide) (by decide)⟩

/-- C7: the declared filename is reduced to its base name
(`path.Base`); a base name of `""`, `"."` or `".."` is rejected with
400 and the filesystem is untouched. -/
theorem claim_C7_name_validation (dropDir : List String) (fs : FS)
    (r : UploadRequest) (hm : r.method = "POST") (hf : r.formOk = true)
    (hname : goPathBase r.filename = "" ∨ goPathBase r.filename = "."
      ∨ goPathBase r.filename = "..") :
    fileDropHandler dropDir fs r = (400, fs) := by
  rcases hname with h | h | h <;> simp [fileDropHandler, hm, hf, h]

/-- Witness for C7: a declared filename `".."` is rejected with 400. -/
theorem claim_C7_name_validation_witness :
    goPathBase ".." = ".."
    ∧ fileDropHandler ["drop"] FS.empty
        ⟨"POST", "k", true, "..", [1], some "file", none⟩
      = (400, FS.empty) :=
  ⟨by decide, claim_C7_name_validation _ _ _ (by decide) (by decide)
    (Or.inr (Or.inr (by decide)))⟩

/-- C8: the claim states every directory entry written by `zipTar`
carries at least the execute bits for owner, group and other. The code
instead tests the READ bits (0o400/0o040/0o004) and only then adds an
execute bit: in the stream of a walk whose top-level directory has mode
0o755 and whose subdirectory `sub` has mode 0o644 (`rw-r--r--`), the
`sub` entry is emitted with mode 0o644 unchanged — no execute bit at
all (`0o644 &&& 0o111 = 0`). -/
theorem claim_C8_dir_mode_bug :
    zipTarEntries "d" [⟨[], .dirK 0o755⟩, ⟨["sub"], .dirK 0o644⟩]
      = [⟨["d"], .dir, 0o755, []⟩, ⟨["d", "sub"], .dir, 0o644, []⟩]
    ∧ 0o644 &&& 0o111 = 0 := by decide

/-- C4: the claim states the produced tar stream contains no entry for
the top-level directory itself and that every entry name is strictly
below the transferred directory's basename. The code behaves otherwise:
`filepath.Rel(filepath.Dir(src), src)` equals `Base(src)`, never `"."`,
so the `relPath == "."` skip (main.go line 195, comment "ignore the
top-level directory") does not fire on a normal invocation, and
`zipTar` emits a `tar.TypeDir` entry named exactly the basename for the
top-level directory: the stream of a walk of directory `d` starts with
an entry named `["d"]`, not strictly below it. -/
theorem claim_C4_top_level_entry_emitted :
    zipTarEntries "d" [⟨[], .dirK 0o755⟩, ⟨["sub"], .dirK 0o755⟩]
      = [⟨["d"], .dir, 0o755, []⟩, ⟨["d", "sub"], .dir, 0o755, []⟩]
    ∧ (⟨["d"], .dir, 0o755, []⟩ : TarEntry).name = ["d"] := by decide

/-- C9: the archiver emits nothing for a symlink walk item, every
entry it does emit is a directory or regular-file entry, and
`unzipUntar` aborts on the first entry of any other type with an error,
applying none of the remaining entries. -/
theorem claim_C9_no_symlink_entries (base : String)
    (items : List WalkItem) (dst : List String) (fs : FS) (e : TarEntry)
    (flag : Nat) (rest : List TarEntry) :
    (∀ it ∈ items, it.kind = .symlinkK → packItem base it = [])
    ∧ (∀ e' ∈ zipTarEntries base items,
        e'.typeflag = .dir ∨ e'.typeflag = .reg)
    ∧ (e.typeflag = .other flag →
        untarEntries dst fs (e :: rest)
          = .error "Unrecognized tar entry type") := by
  refine ⟨?_, ?_, ?_⟩
  · intro it _ hk
    simp [packItem, hk]
  · intro e' he
    rw [zipTarEntries, List.mem_flatMap] at he
    obtain ⟨it, _, hmem⟩ := he
    unfold packItem at hmem
    by_cases hskip : base :: it.relPath = ["."]
    · rw [if_pos hskip] at hmem
      simp at hmem
    · rw [if_neg hskip] at hmem
      cases hk : it.kind with
      | dirK m =>
        rw [hk] at hmem
        simp at hmem
        rw [hmem]
        exact Or.inl rfl
      | fileK m c =>
        rw [hk] at hmem
        simp at hmem
        rw [hmem]
        exact Or.inr rfl
      | symlinkK =>
        rw [hk] at hmem
        simp at hmem
  · intro hother
    simp [untarEntries, applyEntry, hother]

/-- Witness for C9: a symlink item produces no entry and an archive
whose first entry has an unrecognized type flag aborts with the error,
leaving the following regular entry unapplied. -/
theorem claim_C9_no_symlink_entries_witness :
    packItem "d" ⟨["ln"], .symlinkK⟩ = []
    ∧ untarEntries [] FS.empty
        [⟨["x"], .other 50, 0o777, []⟩, ⟨["y"], .reg, 0o644, [1]⟩]
      = .error "Unrecognized tar entry type" :=
  ⟨(claim_C9_no_symlink_entries "d" [⟨["ln"], .symlinkK⟩] [] FS.empty
      ⟨["x"], .other 50, 0o777, []⟩ 50 [⟨["y"], .reg, 0o644, [1]⟩]).1
      ⟨["ln"], .symlinkK⟩ (by decide) rfl,
   (claim_C9_no_symlink_entries "d" [⟨["ln"], .symlinkK⟩] [] FS.empty
      ⟨["x"], .other 50, 0o777, []⟩ 50 [⟨["y"], .reg, 0o644, [1]⟩]).2.2 rfl⟩

/-- C5: (i) an upload whose computed destination path already exists is
answered 409 with the filesystem untouched; (ii) uploading the same
filename twice into a fresh drop directory yields 200 then 409, and
exactly one file with that name exists afterwards. -/
theorem claim_C5_collision :
    (∀ (dropDir : List String) (fs : FS) (r : UploadRequest) (f : String),
      r.method = "POST" → r.formOk = true → goPathBase r.filename = f →
      validSeg f → fs.statExists (dropDir ++ [f]) = true →
      fileDropHandler dropDir fs r = (409, fs))
    ∧ (∀ (dropDir : List String) (r1 r2 : UploadRequest) (f : String),
      r1.method = "POST" → r1.formOk = true → goPathBase r1.filename = f →
      r2.method = "POST" → r2.formOk = true → goPathBase r2.filename = f →
      validSeg f → isDirectory r1.fileType = false →
      fileDropHandler dropDir ⟨[dropDir], []⟩ r1
          = (200, ⟨[dropDir], [(dropDir ++ [f], r1.content)]⟩)
        ∧ fileDropHandler dropDir ⟨[dropDir], [(dropDir ++ [f], r1.content)]⟩ r2
          = (409, ⟨[dropDir], [(dropDir ++ [f], r1.content)]⟩)
        ∧ ((⟨[dropDir], [(dropDir ++ [f], r1.content)]⟩ : FS).files.map
              Prod.fst).count (dropDir ++ [f]) = 1) := by
  have ha : ∀ (dropDir : List String) (fs : FS) (r : UploadRequest)
      (f : String),
      r.method = "POST" → r.formOk = true → goPathBase r.filename = f →
      validSeg f → fs.statExists (dropDir ++ [f]) = true →
      fileDropHandler dropDir fs r = (409, fs) := by
    intro dropDir fs r f hm hf hb hv hex
    obtain ⟨hv1, hv2, hv3, hv4⟩ := hv
    simp [fileDropHandler, hm, hf, hb, hv1, hv2, hv3,
      goPathJoin_single dropDir f ⟨hv1, hv2, hv3, hv4⟩, hex]
  refine ⟨ha, ?_⟩
  intro dropDir r1 r2 f hm1 hf1 hb1 hm2 hf2 hb2 hv hnd
  obtain ⟨hv1, hv2, hv3, hv4⟩ := hv
  have hne : dropDir ++ [f] ≠ dropDir := by simp
  have hex0 : FS.statExists ⟨[dropDir], []⟩ (dropDir ++ [f]) = false := by
    simp [FS.statExists, hne]
  have hfirst : fileDropHandler dropDir ⟨[dropDir], []⟩ r1
      = (200, ⟨[dropDir], [(dropDir ++ [f], r1.content)]⟩) := by
    simp [fileDropHandler, hm1, hf1, hb1, hv1, hv2, hv3,
      goPathJoin_single dropDir f ⟨hv1, hv2, hv3, hv4⟩, hex0, hnd,
      FS.createFile, setFile]
  have hex1 : FS.statExists ⟨[dropDir], [(dropDir ++ [f], r1.content)]⟩
      (dropDir ++ [f]) = true := by
    simp [FS.statExists]
  refine ⟨hfirst, ?_, ?_⟩
  · exact ha dropDir ⟨[dropDir], [(dropDir ++ [f], r1.content)]⟩ r2 f
      hm2 hf2 hb2 ⟨hv1, hv2, hv3, hv4⟩ hex1
  · simp

/-- Witness for C5: uploading `x.txt` twice into a fresh drop
directory gives 200 then 409 and one surviving file. -/
theorem claim_C5_collision_witness :
    fileDropHandler ["drop"] ⟨[["drop"]], []⟩
        ⟨"POST", "k", true, "x.txt", [1, 2], some "file", none⟩
      = (200, ⟨[["drop"]], [(["drop", "x.txt"], [1, 2])]⟩)
    ∧ fileDropHandler ["drop"] ⟨[["drop"]], [(["drop", "x.txt"], [1, 2])]⟩
        ⟨"POST", "k", true, "x.txt", [9], some "file", none⟩
      = (409, ⟨[["drop"]], [(["drop", "x.txt"], [1, 2])]⟩)
    ∧ ((⟨[["drop"]], [(["drop", "x.txt"], [1, 2])]⟩ : FS).files.map
          Prod.fst).count ["drop", "x.txt"] = 1 :=
  claim_C5_collision.2 ["drop"]
    ⟨"POST", "k", true, "x.txt", [1, 2], some "file", none⟩
    ⟨"POST", "k", true, "x.txt", [9], some "file", none⟩
    "x.txt" (by decide) (by decide) (by decide) (by decide) (by decide)
    (by decide) (by decide) (by decide)

/-- C6: the sender frames the transfer as `"dir"` exactly when the
stat of the original source path reported a directory; the receiver
treats exactly the header value `"dir"` as a directory; the handler
never attempts extraction for any other (or absent) value — in that
case the response is 200 with exactly the uploaded bytes written — and
for `"dir"` it always attempts extraction of the just-written file. -/
theorem claim_C6_type_framing (srcIsDir : Bool) (h : Option String)
    (dropDir : List String) (fs : FS) (r : UploadRequest) (f : String)
    (hm : r.method = "POST") (hf : r.formOk = true)
    (hb : goPathBase r.filename = f) (hv : validSeg f)
    (hex : fs.statExists (dropDir ++ [f]) = false) :
    (senderFileType srcIsDir = "dir" ↔ srcIsDir = true)
    ∧ (isDirectory h = true ↔ h = some "dir")
    ∧ (isDirectory r.fileType = false →
        fileDropHandler dropDir fs r
          = (200, fs.createFile (dropDir ++ [f]) r.content))
    ∧ (isDirectory r.fileType = true →
        fileDropHandler dropDir fs r
          = match handlerUntar dropDir f r
                (fs.createFile (dropDir ++ [f]) r.content) with
            | .ok fs2 => (200, fs2)
            | .error _ =>
                (500, fs.createFile (dropDir ++ [f]) r.content)) := by
  obtain ⟨hv1, hv2, hv3, hv4⟩ := hv
  refine ⟨?_, ?_, ?_, ?_⟩
  · cases srcIsDir <;> simp [senderFileType]
  · cases h with
    | none => simp [isDirectory]
    | some ft =>
      simp only [isDirectory]
      split_ifs with h1 h2 h3 <;> simp_all
  · intro hdir
    simp [fileDropHandler, hm, hf, hb, hv1, hv2, hv3,
      goPathJoin_single dropDir f ⟨hv1, hv2, hv3, hv4⟩, hex, hdir]
  · intro hdir
    simp [fileDropHandler, hm, hf, hb, hv1, hv2, hv3,
      goPathJoin_single dropDir f ⟨hv1, hv2, hv3, hv4⟩, hex, hdir]

/-- Witness for C6 at a concrete non-directory-framed request. -/
theorem claim_C6_type_framing_witness :
    validSeg "a.txt"
    ∧ FS.statExists ⟨[["drop"]], []⟩ (["drop"] ++ ["a.txt"]) = false
    ∧ ((senderFileType true = "dir" ↔ true = true)
      ∧ (isDirectory (some "dir") = true ↔ some "dir" = some "dir")
      ∧ (isDirectory (some "file") = false →
          fileDropHandler ["drop"] ⟨[["drop"]], []⟩
              ⟨"POST", "k", true, "a.txt", [1], some "file", none⟩
            = (200, FS.createFile ⟨[["drop"]], []⟩ (["drop"] ++ ["a.txt"]) [1]))
      ∧ (isDirectory (some "file") = true →
          fileDropHandler ["drop"] ⟨[["drop"]], []⟩
              ⟨"POST", "k", true, "a.txt", [1], some "file", none⟩
            = match handlerUntar ["drop"] "a.txt"
                  ⟨"POST", "k", true, "a.txt", [1], some "file", none⟩
                  (FS.createFile ⟨[["drop"]], []⟩
                    (["drop"] ++ ["a.txt"]) [1]) with
              | .ok fs2 => (200, fs2)
              | .error _ =>
                  (500, FS.createFile ⟨[["drop"]], []⟩
                    (["drop"] ++ ["a.txt"]) [1]))) :=
  ⟨by decide, by decide,
    claim_C6_type_framing true (some "dir") ["drop"] ⟨[["drop"]], []⟩
      ⟨"POST", "k", true, "a.txt", [1], some "file", none⟩ "a.txt"
      (by decide) (by decide) (by decide) (by decide) (by decide)⟩

/-- C10: an archive name ending in neither `.tar.gz` nor `.tgz` makes
`unzipUntar` fail with `"the file is not a tarball"` before any entry
is processed (for every archive content and filesystem); consequently a
`"dir"`-framed upload with such a filename is answered 500, with the
uploaded archive file already written into the drop directory. -/
theorem claim_C10_suffix_check (f : String)
    (h1 : goHasSuffix f.data ".tar.gz".data = false)
    (h2 : goHasSuffix f.data ".tgz".data = false) :
    (∀ (dirOfArchive : List String) (entries : List TarEntry) (fs : FS),
      unzipUntar dirOfArchive f entries fs
        = .error "the file is not a tarball")
    ∧ (∀ (dropDir : List String) (fs : FS) (r : UploadRequest),
      r.method = "POST" → r.formOk = true → goPathBase r.filename = f →
      validSeg f → fs.statExists (dropDir ++ [f]) = false →
      r.fileType = some "dir" →
      fileDropHandler dropDir fs r
        = (500, fs.createFile (dropDir ++ [f]) r.content)) := by
  have hdst : untarDstName f = .error "the file is not a tarball" := by
    unfold untarDstName
    rw [if_neg (by simp [h1]), if_neg (by simp [h2])]
  constructor
  · intro dirOfArchive entries fs
    unfold unzipUntar
    rw [hdst]
  · intro dropDir fs r hm hf hb hv hex hft
    obtain ⟨hv1, hv2, hv3, hv4⟩ := hv
    have hdir : isDirectory r.fileType = true := by
      rw [hft]
      rfl
    have hu : handlerUntar dropDir f r
        (fs.createFile (dropDir ++ [f]) r.content)
          = .error "the file is not a tarball" := by
      unfold handlerUntar
      rw [hdst]
    simp [fileDropHandler, hm, hf, hb, hv1, hv2, hv3,
      goPathJoin_single dropDir f ⟨hv1, hv2, hv3, hv4⟩, hex, hdir, hu]

/-- Witness for C10: uploading `d.zip` with `"dir"` framing yields 500
and the archive file is left written in the drop directory. -/
theorem claim_C10_suffix_check_witness :
    goHasSuffix ("d.zip" : String).data ".tar.gz".data = false
    ∧ unzipUntar ["drop"] "d.zip" [⟨["a"], .reg, 0o644, [1]⟩] FS.empty
        = .error "the file is not a tarball"
    ∧ fileDropHandler ["drop"] ⟨[["drop"]], []⟩
        ⟨"POST", "k", true, "d.zip", [5, 6], some "dir", none⟩
      = (500, FS.createFile ⟨[["drop"]], []⟩ (["drop"] ++ ["d.zip"]) [5, 6]) :=
  ⟨by decide,
   (claim_C10_suffix_check "d.zip" (by decide) (by decide)).1
     ["drop"] [⟨["a"], .reg, 0o644, [1]⟩] FS.empty,
   (claim_C10_suffix_check "d.zip" (by decide) (by decide)).2
     ["drop"] ⟨[["drop"]], []⟩
     ⟨"POST", "k", true, "d.zip", [5, 6], some "dir", none⟩
     (by decide) (by decide) (by decide) (by decide) (by decide) rfl⟩

/-- Appending `"."` to a genuine path component yields a genuine path
component (the shape of `unzipUntar`'s destination directory name,
obtained by trimming `"tar.gz"` off `"<base>.tar.gz"`). -/
theorem validSeg_append_dot (base : String) (h : validSeg base) :
    validSeg (base ++ ".") := by
  obtain ⟨h1, h2, h3, h4⟩ := h
  have hdata : (base ++ ".").data = base.data ++ ['.'] := by
    simp [String.data_append]
  have hbd : ∀ t : String, base = t ↔ base.data = t.data := by
    intro t
    constructor
    · intro he
      rw [he]
    · intro he
      rw [← string_mk_data base, he, string_mk_data]
  refine ⟨?_, ?_, ?_, ?_⟩
  · intro he
    have hd := congrArg String.data he
    rw [hdata] at hd
    simp at hd
  · intro he
    have hd := congrArg String.data he
    rw [hdata] at hd
    have hdd : base.data ++ ['.'] = [] ++ ['.'] := by simpa using hd
    exact h1 ((hbd "").mpr (by
      simpa using List.append_cancel_right hdd))
  · intro he
    have hd := congrArg String.data he
    rw [hdata] at hd
    have hdd : base.data ++ ['.'] = ['.'] ++ ['.'] := by simpa using hd
    exact h2 ((hbd ".").mpr (by
      simpa using List.append_cancel_right hdd))
  · intro hc
    rw [hdata] at hc
    rcases List.mem_append.mp hc with hin | hin
    · exact h4 hin
    · simp at hin

/-- C3: round trip. Packing a walk sequence of regular files and
subdirectories (no symlinks) with `zipTar` and extracting the result
with `unzipUntar` (whose destination root is the archive path with the
`tar.gz` suffix trimmed, i.e. `<parent>/<base>.`) succeeds and
materializes exactly one file per source regular file, at the source's
relative path rooted at the directory's basename underneath the
destination root, with identical bytes — and no other file (the
directory entries of the stream, including the top-level entry named
`base` that `zipTar` emits, only create directories). The hypotheses
say the walk's names are genuine path components, no item is a symlink,
and distinct items denote distinct files. -/
theorem claim_C3_roundtrip (parent : List String) (base : String)
    (items : List WalkItem)
    (hbase : validSeg base)
    (hsegs : ∀ it ∈ items, ∀ s ∈ it.relPath, validSeg s)
    (hnosym : ∀ it ∈ items, it.kind ≠ .symlinkK)
    (hnd : ((fileOutputs (parent ++ [base ++ "."]) base items).map
        Prod.fst).Nodup) :
    (unzipUntar parent (base ++ ".tar.gz") (zipTarEntries base items)
        FS.empty).map FS.files
      = .ok (fileOutputs (parent ++ [base ++ "."]) base items) := by
  have hvdst : validSeg (base ++ ".") := validSeg_append_dot base hbase
  have hjoin : goPathJoin parent (splitSlash (base ++ "."))
      = parent ++ [base ++ "."] := goPathJoin_single parent _ hvdst
  unfold unzipUntar
  simp only [untarDstName_targz, hjoin]
  have hres := untar_zipTar base items (parent ++ [base ++ "."]) FS.empty
    hbase hsegs hnd (by intro k _ hk; simp [FS.empty] at hk)
  simpa [FS.empty] using hres

/-- Witness for C3 at a concrete two-file, one-subdirectory tree:
source files `sub/f.txt` (bytes 1,2,3) and `g.txt` (byte 4) of
directory `/drop/d` come back at `/drop/d./d/sub/f.txt` and
`/drop/d./d/g.txt` with the same bytes. -/
theorem claim_C3_roundtrip_witness :
    validSeg "d"
    ∧ (unzipUntar ["drop"] ("d" ++ ".tar.gz")
        (zipTarEntries "d"
          [⟨[], .dirK 0o755⟩, ⟨["sub"], .dirK 0o700⟩,
           ⟨["sub", "f.txt"], .fileK 0o644 [1, 2, 3]⟩,
           ⟨["g.txt"], .fileK 0o600 [4]⟩]) FS.empty).map FS.files
      = .ok (fileOutputs (["drop"] ++ ["d" ++ "."]) "d"
          [⟨[], .dirK 0o755⟩, ⟨["sub"], .dirK 0o700⟩,
           ⟨["sub", "f.txt"], .fileK 0o644 [1, 2, 3]⟩,
           ⟨["g.txt"], .fileK 0o600 [4]⟩]) :=
  ⟨by decide, claim_C3_roundtrip ["drop"] "d"
    [⟨[], .dirK 0o755⟩, ⟨["sub"], .dirK 0o700⟩,
     ⟨["sub", "f.txt"], .fileK 0o644 [1, 2, 3]⟩,
     ⟨["g.txt"], .fileK 0o600 [4]⟩]
    (by decide) (by decide) (by decide) (by decide)⟩

end Ftr
